import Mathlib

/-!
Shallow embedding of `tools/report/report.py` (vSwitch characterization
report generation) and verification of its specification.

Modelling conventions:
* Python dictionaries / `OrderedDict`s of string keys are association
  lists (`List (String × α)`); construction goes through `odInsert`,
  which models item assignment `d[k] = v` on an `OrderedDict` (update
  the value in place if the key is present, else append at the end), so
  every dictionary that the code builds has pairwise-distinct keys.
* A Python `KeyError` is the `Except.error` case, carrying the missing
  key as a `String`.
* External collaborators not part of this module are parameters:
  the jinja template is a function `List Entry → String`, the
  `systeminfo` environment probes are a fixed `Env` record, and the
  CSV reader's output is the header row plus the list of data rows
  (each a `List String`).
* Writing the output file is modelled by the `Written` record returned
  on success: `generate` returns `.ok ⟨p, c⟩` exactly when the code
  writes content `c` to path `p` and returns `p`; it returns
  `.error e` exactly when a `KeyError` for key `e.key` is logged
  against input file `e.logged_file` and re-raised, with no file
  written.
-/

set_option autoImplicit false

namespace VsperfReport

/-- Python dict lookup `d[k]` (first occurrence; dicts built by the code
have unique keys). -/
def odFind {α : Type} : List (String × α) → String → Option α
  | [], _ => none
  | p :: ps, k => if k = p.1 then some p.2 else odFind ps k

/-- `OrderedDict` item assignment `d[k] = v`: replace the value of an
existing key in place, otherwise append the new pair at the end. -/
def odInsert {α : Type} : List (String × α) → String → α → List (String × α)
  | [], k, v => [(k, v)]
  | p :: ps, k, v => if k = p.1 then (k, v) :: ps else p :: odInsert ps k v

/-- `OrderedDict` deletion `del d[k]`: remove the (first) pair with the
given key; the code only deletes keys it has just looked up. -/
def odDel {α : Type} : List (String × α) → String → List (String × α)
  | [], _ => []
  | p :: ps, k => if k = p.1 then ps else p :: odDel ps k

/-- A CSV result row parsed into a header-keyed mapping. -/
abbrev Dict := List (String × String)

/-- Modelled from the spec: `core.results.results_constants.ResultsConstants`
is not under `src/`; the spec names the identifier column `id`
(ResultsConstants.ID). -/
def ResultsConstants_ID : String := "id"

/-- Modelled from the spec: `core.results.results_constants.ResultsConstants`
is not under `src/`; the spec names the deployment column `deployment`
(ResultsConstants.DEPLOYMENT). -/
def ResultsConstants_DEPLOYMENT : String := "deployment"

/-- Modelled from the spec: the `tools.systeminfo` probes are not under
`src/`; `_get_env` packages the seven probe results, so the environment
snapshot is a record of seven strings. -/
structure Env where
  os : String
  kernel : String
  nic : String
  cpu : String
  cpu_cores : String
  memory : String
  platform : String
deriving DecidableEq, Repr

/-- Values stored in a `TestReportEntry` mapping: strings (`ID`, `id`,
`deployment`), string dictionaries (`conf`, `result`) and the
environment snapshot (`env`). -/
inductive Val where
  | str : String → Val
  | dict : Dict → Val
  | env : Env → Val
deriving DecidableEq, Repr

/-- One `TestReportEntry`: the dict literal appended to `tests`. -/
abbrev Entry := List (String × Val)

/-- `OrderedDict(zip(list(res_head), list(res_row)))` from `_get_results`:
fold item assignment over the zipped pairs, starting from the empty dict. -/
def buildRow (res_head res_row : List String) : Dict :=
  (res_head.zip res_row).foldl (fun d p => odInsert d p.1 p.2) []

/-- `_get_results`, given the already-read header row and data rows:
one `ResultRow` per data row. -/
def get_results (res_head : List String) (rows : List (List String)) : List Dict :=
  rows.map (buildRow res_head)

/-- Spec-side helper: first-defined choice between two optional values. -/
def orO {α : Type} : Option α → Option α → Option α
  | some v, _ => some v
  | none, o => o

/-- Spec-side helper: the value of the last pair carrying key `k`
("duplicate header names collide — last wins"). -/
def lastVal (k : String) : List (String × String) → Option String
  | [] => none
  | p :: ps => orO (lastVal k ps) (if k = p.1 then some p.2 else none)

/-- Spec-side helper: the keys of a pair list in order of first
occurrence, skipping keys already `seen`. -/
def newKeys : List String → List (String × String) → List String
  | _, [] => []
  | seen, p :: ps =>
    if p.1 ∈ seen then newKeys seen ps
    else p.1 :: newKeys (p.1 :: seen) ps

/-- The `for tc_conf in testcases` matching loop of `generate`:
`test_config` starts `{}`; the first `tc_conf` whose `Name` equals
`result[ResultsConstants.ID]` is taken and the loop breaks.  Evaluation
order is Python's: `tc_conf['Name']` is looked up before
`result[ResultsConstants.ID]`, either lookup may raise `KeyError`. -/
def findMatch : List Dict → Dict → Except String Dict
  | [], _ => .ok []
  | tc_conf :: rest, result =>
    match odFind tc_conf "Name" with
    | none => .error "Name"
    | some name =>
      match odFind result ResultsConstants_ID with
      | none => .error ResultsConstants_ID
      | some rid =>
        if name = rid then .ok tc_conf else findMatch rest result

/-- The body of `generate`'s per-row loop: match a config, read and
delete the id and deployment fields, and build the appended dict literal
`{'ID': tc_id.upper(), 'id': tc_id, 'deployment': tc_deployment,
'conf': test_config, 'result': result, 'env': _get_env()}`. -/
def processRow (testcases : List Dict) (env : Env) (result : Dict) :
    Except String Entry :=
  match findMatch testcases result with
  | .error k => .error k
  | .ok test_config =>
    match odFind result ResultsConstants_ID with
    | none => .error ResultsConstants_ID
    | some tc_id =>
      match odFind result ResultsConstants_DEPLOYMENT with
      | none => .error ResultsConstants_DEPLOYMENT
      | some tc_deployment =>
        .ok [("ID", .str tc_id.toUpper),
             ("id", .str tc_id),
             ("deployment", .str tc_deployment),
             ("conf", .dict test_config),
             ("result", .dict (odDel (odDel result ResultsConstants_ID)
                                     ResultsConstants_DEPLOYMENT)),
             ("env", .env env)]

/-- The `tests` accumulation loop of `generate`: process the rows in
order, aborting at the first `KeyError`. -/
def buildTests (testcases : List Dict) (env : Env) :
    List Dict → Except String (List Entry)
  | [] => .ok []
  | r :: rs =>
    match processRow testcases env r with
    | .error k => .error k
    | .ok e =>
      match buildTests testcases env rs with
      | .error k => .error k
      | .ok es => .ok (e :: es)

/-- Helper for `pySplitextRoot`: split a path at the last `/`,
returning (directory part including the separator, basename). -/
def splitAtLastSep : List Char → List Char × List Char
  | [] => ([], [])
  | c :: cs =>
    if cs.contains '/' then
      let p := splitAtLastSep cs
      (c :: p.1, p.2)
    else if c = '/' then ([c], cs)
    else ([], c :: cs)

/-- Helper for `pySplitextRoot`: split a basename at its last `.`,
returning (part before the dot, part from the dot on), or `none` when it
has no dot. -/
def splitAtLastDot : List Char → Option (List Char × List Char)
  | [] => none
  | c :: cs =>
    match splitAtLastDot cs with
    | some p => some (c :: p.1, p.2)
    | none => if c = '.' then some ([], c :: cs) else none

/-- `os.path.splitext(p)[0]` (posix): strip the final extension, which
starts at the last dot of the basename provided some earlier character
of the basename is not a dot (so `.bashrc` or a dotless name is kept
whole). -/
def pySplitextRoot (p : String) : String :=
  let b := splitAtLastSep p.data
  match splitAtLastDot b.2 with
  | some pr => if pr.1.any (fun c => c != '.') then String.mk (b.1 ++ pr.1) else p
  | none => p

/-- The `KeyError` handler of `generate`: the error carries the missing
key and the input file named by the log line
`"Report: Ignoring file (Wrongly defined columns): %s"` emitted just
before the exception is re-raised. -/
structure ReportError where
  key : String
  logged_file : String
deriving DecidableEq, Repr

/-- The success outcome of `generate`: content `content` is written to
`path`, and `path` is returned. -/
structure Written where
  path : String
  content : String
deriving DecidableEq, Repr

/-- `generate(testcases, input_file)`: derive the output path by
`'.'.join([os.path.splitext(input_file)[0], 'md'])`, build the `tests`
list from the parsed rows, and on success render the template on
`{'tests': tests}` and write the result; a `KeyError` anywhere in the
loop is logged against `input_file` and re-raised, writing nothing. -/
def generate (template : List Entry → String) (env : Env)
    (testcases : List Dict) (input_file : String)
    (res_head : List String) (rows : List (List String)) :
    Except ReportError Written :=
  let output_file := pySplitextRoot input_file ++ ".md"
  match buildTests testcases env (get_results res_head rows) with
  | .error k => .error ⟨k, input_file⟩
  | .ok tests => .ok ⟨output_file, template tests⟩

/-! ### Association-list lemmas -/

theorem orO_none {α : Type} (o : Option α) : orO o none = o := by
  cases o <;> rfl

theorem odFind_odInsert {α : Type} (d : List (String × α)) (k k' : String) (v : α) :
    odFind (odInsert d k v) k' = if k' = k then some v else odFind d k' := by
  induction d with
  | nil => simp [odInsert, odFind]
  | cons p ps ih =>
    by_cases hk : k = p.1
    · by_cases h : k' = k
      · simp [odInsert, odFind, hk, h]
      · have hp : ¬ k' = p.1 := by rw [← hk]; exact h
        simp [odInsert, odFind, hk, h, hp]
    · by_cases hp : k' = p.1
      · have h : ¬ k' = k := fun hh => hk (hh ▸ hp)
        simp [odInsert, odFind, hk, hp, h, Ne.symm hk]
      · simp [odInsert, odFind, hk, hp, ih]

theorem keys_odInsert {α : Type} (d : List (String × α)) (k : String) (v : α) :
    (odInsert d k v).map Prod.fst =
      if k ∈ d.map Prod.fst then d.map Prod.fst else d.map Prod.fst ++ [k] := by
  induction d with
  | nil => simp [odInsert]
  | cons p ps ih =>
    by_cases hk : k = p.1
    · simp [odInsert, hk]
    · by_cases hm : k ∈ ps.map Prod.fst <;> simp [odInsert, hk, hm, ih]

theorem odFind_foldl (ps : List (String × String)) (d : Dict) (k : String) :
    odFind (ps.foldl (fun d p => odInsert d p.1 p.2) d) k =
      orO (lastVal k ps) (odFind d k) := by
  induction ps generalizing d with
  | nil => simp [lastVal, orO]
  | cons p ps ih =>
    simp only [List.foldl_cons, lastVal, ih, odFind_odInsert]
    rcases h : lastVal k ps with _ | v <;> by_cases hk : k = p.1 <;> simp [orO, hk, h]

theorem newKeys_congr (s₁ s₂ : List String) (ps : List (String × String))
    (h : ∀ x, x ∈ s₁ ↔ x ∈ s₂) : newKeys s₁ ps = newKeys s₂ ps := by
  induction ps generalizing s₁ s₂ with
  | nil => rfl
  | cons p ps ih =>
    simp only [newKeys]
    by_cases hm : p.1 ∈ s₁
    · rw [if_pos hm, if_pos ((h p.1).1 hm), ih _ _ h]
    · rw [if_neg hm, if_neg (fun hh => hm ((h p.1).2 hh))]
      exact congrArg (List.cons p.1)
        (ih (p.1 :: s₁) (p.1 :: s₂) (fun x => by simp [h x]))

theorem keys_foldl (ps : List (String × String)) (d : Dict) :
    (ps.foldl (fun d p => odInsert d p.1 p.2) d).map Prod.fst =
      d.map Prod.fst ++ newKeys (d.map Prod.fst) ps := by
  induction ps generalizing d with
  | nil => simp [newKeys]
  | cons p ps ih =>
    simp only [List.foldl_cons, newKeys, ih, keys_odInsert]
    by_cases hm : p.1 ∈ d.map Prod.fst
    · rw [if_pos hm, if_pos hm]
    · rw [if_neg hm, if_neg hm,
        newKeys_congr (d.map Prod.fst ++ [p.1]) (p.1 :: d.map Prod.fst) ps
          (fun x => by simp [or_comm])]
      simp

theorem newKeys_nodup (seen : List String) (ps : List (String × String)) :
    (newKeys seen ps).Nodup ∧ ∀ x ∈ newKeys seen ps, x ∉ seen := by
  induction ps generalizing seen with
  | nil => simp [newKeys]
  | cons p ps ih =>
    simp only [newKeys]
    by_cases hm : p.1 ∈ seen
    · simpa [hm] using ih seen
    · rw [if_neg hm]
      obtain ⟨h1, h2⟩ := ih (p.1 :: seen)
      refine ⟨List.nodup_cons.2 ⟨fun hmem => ?_, h1⟩, ?_⟩
      · exact (h2 _ hmem) (List.mem_cons_self _ _)
      · intro x hx
        rcases List.mem_cons.1 hx with rfl | hx'
        · exact hm
        · exact fun hxs => (h2 x hx') (List.mem_cons.2 (Or.inr hxs))

theorem keys_buildRow (res_head res_row : List String) :
    (buildRow res_head res_row).map Prod.fst = newKeys [] (res_head.zip res_row) := by
  rw [buildRow, keys_foldl]
  simp

theorem nodup_keys_buildRow (res_head res_row : List String) :
    ((buildRow res_head res_row).map Prod.fst).Nodup := by
  rw [keys_buildRow]
  exact (newKeys_nodup [] _).1

theorem odDel_eq_filter {α : Type} (d : List (String × α)) (k : String)
    (h : (d.map Prod.fst).Nodup) :
    odDel d k = d.filter (fun p => p.1 != k) := by
  induction d with
  | nil => rfl
  | cons p ps ih =>
    simp only [List.map_cons, List.nodup_cons] at h
    by_cases hk : k = p.1
    · rw [odDel, if_pos hk, List.filter_cons_of_neg (by simp [hk])]
      refine (List.filter_eq_self.2 (fun a ha => ?_)).symm
      have hmem : a.1 ∈ ps.map Prod.fst := List.mem_map_of_mem Prod.fst ha
      have hne : a.1 ≠ k := by
        intro hh
        apply h.1
        rw [← hk, ← hh]
        exact hmem
      simpa using hne
    · rw [odDel, if_neg hk,
        List.filter_cons_of_pos (by simp only [bne_iff_ne, ne_eq]; exact fun hh => hk hh.symm),
        ih h.2]

theorem keys_filter {α : Type} (d : List (String × α)) (f : String → Bool) :
    (d.filter (fun p => f p.1)).map Prod.fst = (d.map Prod.fst).filter f := by
  induction d with
  | nil => rfl
  | cons p ps ih => by_cases hf : f p.1 <;> simp [List.filter_cons, hf, ih]

/-! ### Row-processing lemmas -/

theorem findMatch_ok (tcs : List Dict) (r : Dict) (rid : String)
    (hid : odFind r ResultsConstants_ID = some rid)
    (htcs : ∀ tc ∈ tcs, (odFind tc "Name").isSome) :
    findMatch tcs r =
      .ok ((tcs.find? (fun tc => odFind tc "Name" == some rid)).getD []) := by
  induction tcs with
  | nil => simp [findMatch]
  | cons tc rest ih =>
    have hname := htcs tc (List.mem_cons_self _ _)
    rcases hOpt : odFind tc "Name" with _ | name
    · rw [hOpt] at hname; simp at hname
    · simp only [findMatch, hOpt, hid]
      by_cases he : name = rid
      · rw [if_pos he, List.find?_cons_of_pos _ (by simp [hOpt, he]), Option.getD_some]
      · rw [if_neg he, List.find?_cons_of_neg _ (by simp [hOpt, he]),
          ih (fun tc h => htcs tc (List.mem_cons_of_mem _ h))]

theorem processRow_ok (tcs : List Dict) (env : Env) (r : Dict) (rid dep : String)
    (hid : odFind r ResultsConstants_ID = some rid)
    (hdep : odFind r ResultsConstants_DEPLOYMENT = some dep)
    (htcs : ∀ tc ∈ tcs, (odFind tc "Name").isSome) :
    processRow tcs env r = .ok
      [("ID", .str rid.toUpper),
       ("id", .str rid),
       ("deployment", .str dep),
       ("conf", .dict ((tcs.find? (fun tc => odFind tc "Name" == some rid)).getD [])),
       ("result", .dict (odDel (odDel r ResultsConstants_ID) ResultsConstants_DEPLOYMENT)),
       ("env", .env env)] := by
  rw [processRow, findMatch_ok tcs r rid hid htcs]
  simp [hid, hdep]

theorem processRow_err_id (tcs : List Dict) (env : Env) (r : Dict)
    (hid : odFind r ResultsConstants_ID = none) :
    ∃ k, processRow tcs env r = .error k := by
  cases tcs with
  | nil => exact ⟨ResultsConstants_ID, by simp [processRow, findMatch, hid]⟩
  | cons tc rest =>
    rcases h : odFind tc "Name" with _ | name
    · exact ⟨"Name", by simp [processRow, findMatch, h]⟩
    · exact ⟨ResultsConstants_ID, by simp [processRow, findMatch, h, hid]⟩

theorem processRow_err_dep (tcs : List Dict) (env : Env) (r : Dict)
    (hdep : odFind r ResultsConstants_DEPLOYMENT = none) :
    ∃ k, processRow tcs env r = .error k := by
  cases hm : findMatch tcs r with
  | error k => exact ⟨k, by simp [processRow, hm]⟩
  | ok conf =>
    rcases hid : odFind r ResultsConstants_ID with _ | rid
    · exact ⟨ResultsConstants_ID, by simp [processRow, hm, hid]⟩
    · exact ⟨ResultsConstants_DEPLOYMENT, by simp [processRow, hm, hid, hdep]⟩

theorem buildTests_err (tcs : List Dict) (env : Env) (rows : List Dict) (r : Dict)
    (hr : r ∈ rows) (herr : ∃ k, processRow tcs env r = .error k) :
    ∃ k, buildTests tcs env rows = .error k := by
  induction rows with
  | nil => cases hr
  | cons r0 rest ih =>
    rcases List.mem_cons.1 hr with rfl | hmem
    · obtain ⟨k, hk⟩ := herr
      exact ⟨k, by simp [buildTests, hk]⟩
    · cases hp : processRow tcs env r0 with
      | error k => exact ⟨k, by simp [buildTests, hp]⟩
      | ok e =>
        obtain ⟨k, hk⟩ := ih hmem
        exact ⟨k, by simp [buildTests, hp, hk]⟩

theorem findMatch_err_name (pre rest : List Dict) (bad : Dict) (r : Dict) (rid : String)
    (hid : odFind r ResultsConstants_ID = some rid)
    (hpre : ∀ tc ∈ pre, ∃ n, odFind tc "Name" = some n ∧ n ≠ rid)
    (hbad : odFind bad "Name" = none) :
    findMatch (pre ++ bad :: rest) r = .error "Name" := by
  induction pre with
  | nil => simp [findMatch, hbad]
  | cons tc pre ih =>
    obtain ⟨n, hn, hne⟩ := hpre tc (List.mem_cons_self _ _)
    simp only [List.cons_append, findMatch, hn, hid, if_neg hne]
    exact ih (fun tc h => hpre tc (List.mem_cons_of_mem _ h))

theorem processRow_err_name (pre rest : List Dict) (bad : Dict) (env : Env)
    (r : Dict) (rid : String)
    (hid : odFind r ResultsConstants_ID = some rid)
    (hpre : ∀ tc ∈ pre, ∃ n, odFind tc "Name" = some n ∧ n ≠ rid)
    (hbad : odFind bad "Name" = none) :
    processRow (pre ++ bad :: rest) env r = .error "Name" := by
  rw [processRow, findMatch_err_name pre rest bad r rid hid hpre hbad]

theorem buildTests_spec (tcs : List Dict) (env : Env) (res_head : List String)
    (rows : List (List String))
    (hrows : ∀ row ∈ rows,
      (odFind (buildRow res_head row) ResultsConstants_ID).isSome ∧
      (odFind (buildRow res_head row) ResultsConstants_DEPLOYMENT).isSome)
    (htcs : ∀ tc ∈ tcs, (odFind tc "Name").isSome) :
    ∃ ts, buildTests tcs env (get_results res_head rows) = .ok ts ∧
      List.Forall₂ (fun row e =>
        processRow tcs env (buildRow res_head row) = .ok e ∧
        e.map Prod.fst = ["ID", "id", "deployment", "conf", "result", "env"] ∧
        ∃ rid, odFind (buildRow res_head row) ResultsConstants_ID = some rid ∧
          odFind e "ID" = some (.str rid.toUpper) ∧
          odFind e "id" = some (.str rid)) rows ts := by
  induction rows with
  | nil => exact ⟨[], rfl, List.Forall₂.nil⟩
  | cons row rest ih =>
    obtain ⟨hid', hdep'⟩ := hrows row (List.mem_cons_self _ _)
    obtain ⟨rid, hid⟩ := Option.isSome_iff_exists.1 hid'
    obtain ⟨dep, hdep⟩ := Option.isSome_iff_exists.1 hdep'
    obtain ⟨ts, hts, hfa⟩ := ih (fun r h => hrows r (List.mem_cons_of_mem _ h))
    have hpr := processRow_ok tcs env (buildRow res_head row) rid dep hid hdep htcs
    refine ⟨_ :: ts, ?_, List.Forall₂.cons ⟨hpr, rfl, rid, hid, rfl, rfl⟩ hfa⟩
    show buildTests tcs env (buildRow res_head row :: get_results res_head rest) = _
    rw [buildTests, hpr, hts]

/-! ### The claims -/

/-- C1: for a well-formed CSV whose N data rows each contain the `id`
and `deployment` columns (and testcases each carrying the `Name` key,
as the spec's TestCaseConfig demands), `generate` succeeds and renders
exactly N entries, in row order, each entry having exactly the keys
`ID, id, deployment, conf, result, env`, with `ID` the uppercased
identifier and `id` the original identifier. -/
theorem generate_entry_per_row (template : List Entry → String) (env : Env)
    (testcases : List Dict) (input_file : String)
    (res_head : List String) (rows : List (List String))
    (hrows : ∀ row ∈ rows,
      (odFind (buildRow res_head row) ResultsConstants_ID).isSome ∧
      (odFind (buildRow res_head row) ResultsConstants_DEPLOYMENT).isSome)
    (htcs : ∀ tc ∈ testcases, (odFind tc "Name").isSome) :
    ∃ tests, generate template env testcases input_file res_head rows =
        .ok ⟨pySplitextRoot input_file ++ ".md", template tests⟩ ∧
      tests.length = rows.length ∧
      List.Forall₂ (fun row e =>
        e.map Prod.fst = ["ID", "id", "deployment", "conf", "result", "env"] ∧
        ∃ rid, odFind (buildRow res_head row) ResultsConstants_ID = some rid ∧
          odFind e "ID" = some (.str rid.toUpper) ∧
          odFind e "id" = some (.str rid)) rows tests := by
  obtain ⟨ts, hts, hfa⟩ := buildTests_spec testcases env res_head rows hrows htcs
  refine ⟨ts, ?_, (List.Forall₂.length_eq hfa).symm, hfa.imp (fun _ _ hpe => hpe.2)⟩
  rw [generate, hts]

theorem odDel_odDel_buildRow (res_head row : List String) :
    odDel (odDel (buildRow res_head row) ResultsConstants_ID) ResultsConstants_DEPLOYMENT =
      (buildRow res_head row).filter
        (fun p => p.1 != ResultsConstants_ID && p.1 != ResultsConstants_DEPLOYMENT) := by
  have h1 := nodup_keys_buildRow res_head row
  have hsub : List.Sublist
      (((buildRow res_head row).filter (fun p => p.1 != ResultsConstants_ID)).map Prod.fst)
      ((buildRow res_head row).map Prod.fst) :=
    (List.filter_sublist _).map Prod.fst
  rw [odDel_eq_filter _ _ h1, odDel_eq_filter _ _ (h1.sublist hsub), List.filter_filter]
  exact List.filter_congr (fun a _ => by rw [Bool.and_comm])

theorem zip_take_len_left (h r : List String) :
    (h.take r.length).zip r = h.zip r := by
  induction h generalizing r with
  | nil => simp
  | cons a h ih =>
    cases r with
    | nil => simp
    | cons b r => simp [ih]

theorem zip_take_len_right (h r : List String) :
    h.zip (r.take h.length) = h.zip r := by
  induction h generalizing r with
  | nil => simp
  | cons a h ih =>
    cases r with
    | nil => simp
    | cons b r => simp [ih]

/-- Claim C2: a row's `conf` is the first testcase whose `Name` equals
the row's identifier (first match wins), or the empty mapping when none
matches, and a failed match raises nothing (the row still yields an
entry). -/
theorem conf_first_match_wins (tcs : List Dict) (env : Env)
    (res_head row : List String) (rid dep : String)
    (hid : odFind (buildRow res_head row) ResultsConstants_ID = some rid)
    (hdep : odFind (buildRow res_head row) ResultsConstants_DEPLOYMENT = some dep)
    (htcs : ∀ tc ∈ tcs, (odFind tc "Name").isSome) :
    ∃ e, processRow tcs env (buildRow res_head row) = .ok e ∧
      odFind e "conf" =
        some (.dict ((tcs.find? (fun tc => odFind tc "Name" == some rid)).getD [])) :=
  ⟨_, processRow_ok tcs env _ rid dep hid hdep htcs, rfl⟩

/-- Claim C3: a row's `result` is that row's mapping with exactly the
`id` and `deployment` keys removed, the other columns keeping their
order and verbatim values. -/
theorem result_drops_id_and_deployment (tcs : List Dict) (env : Env)
    (res_head row : List String) (rid dep : String)
    (hid : odFind (buildRow res_head row) ResultsConstants_ID = some rid)
    (hdep : odFind (buildRow res_head row) ResultsConstants_DEPLOYMENT = some dep)
    (htcs : ∀ tc ∈ tcs, (odFind tc "Name").isSome) :
    ∃ e, processRow tcs env (buildRow res_head row) = .ok e ∧
      odFind e "result" = some (.dict ((buildRow res_head row).filter
        (fun p => p.1 != ResultsConstants_ID && p.1 != ResultsConstants_DEPLOYMENT))) := by
  refine ⟨_, processRow_ok tcs env _ rid dep hid hdep htcs, ?_⟩
  rw [← odDel_odDel_buildRow res_head row]
  exact rfl

/-- Claim C4: when some data row lacks the `id` or the `deployment`
column, `generate` aborts with a missing-key error that is logged
against the input file and re-raised; no output file is written
(an `.error` outcome carries no `Written`). -/
theorem missing_field_aborts_generate (template : List Entry → String) (env : Env)
    (testcases : List Dict) (input_file : String)
    (res_head : List String) (rows : List (List String))
    (hbad : ∃ row ∈ rows,
      odFind (buildRow res_head row) ResultsConstants_ID = none ∨
      odFind (buildRow res_head row) ResultsConstants_DEPLOYMENT = none) :
    ∃ k, generate template env testcases input_file res_head rows =
      .error ⟨k, input_file⟩ := by
  obtain ⟨row, hrow, hmiss⟩ := hbad
  have herr : ∃ k, processRow testcases env (buildRow res_head row) = .error k := by
    rcases hmiss with h | h
    · exact processRow_err_id testcases env _ h
    · exact processRow_err_dep testcases env _ h
  obtain ⟨k, hk⟩ := buildTests_err testcases env (get_results res_head rows)
    (buildRow res_head row) (List.mem_map_of_mem _ hrow) herr
  exact ⟨k, by rw [generate, hk]⟩

/-- Claim C5: the path `generate` writes to and returns replaces the
input path's final extension with `.md`, independently of the CSV
content; in particular `results.csv ↦ results.md` and
`a.b.csv ↦ a.b.md`. -/
theorem output_path_replaces_final_extension (template : List Entry → String)
    (env : Env) (testcases : List Dict) (input_file : String)
    (res_head : List String) (rows : List (List String)) (w : Written)
    (h : generate template env testcases input_file res_head rows = .ok w) :
    w.path = pySplitextRoot input_file ++ ".md" ∧
    pySplitextRoot "results.csv" = "results" ∧
    pySplitextRoot "a.b.csv" = "a.b" := by
  refine ⟨?_, rfl, rfl⟩
  rw [generate] at h
  cases hb : buildTests testcases env (get_results res_head rows) with
  | error k => rw [hb] at h; simp at h
  | ok ts =>
    rw [hb] at h
    injection h with h2
    rw [← h2]

/-- Claim C6: `generate` is deterministic in its inputs and
collaborators: two calls with the same template, environment snapshot,
testcases and unchanged input produce the same returned path and
byte-identical written content. -/
theorem generate_deterministic (template : List Entry → String) (env : Env)
    (testcases : List Dict) (input_file : String) (res_head : List String)
    (rows : List (List String)) (w₁ w₂ : Written)
    (h₁ : generate template env testcases input_file res_head rows = .ok w₁)
    (h₂ : generate template env testcases input_file res_head rows = .ok w₂) :
    w₁.path = w₂.path ∧ w₁.content = w₂.content := by
  have h := h₁.symm.trans h₂
  injection h with h
  exact ⟨by rw [h], by rw [h]⟩

/-- Claim C7: a `ResultRow` zips header names to values preserving
column order (keys appear in order of first occurrence), a duplicated
header keeps the last value zipped to it, and the row's keys are
unique. -/
theorem buildRow_zip_semantics (res_head res_row : List String) :
    ((buildRow res_head res_row).map Prod.fst).Nodup ∧
    (buildRow res_head res_row).map Prod.fst = newKeys [] (res_head.zip res_row) ∧
    ∀ k, odFind (buildRow res_head res_row) k = lastVal k (res_head.zip res_row) := by
  refine ⟨nodup_keys_buildRow _ _, keys_buildRow _ _, fun k => ?_⟩
  rw [buildRow, odFind_foldl]
  simp [odFind, orO_none]

/-- Claim C8: when a data row's arity differs from the header's, the
built `ResultRow` uses exactly the pairs of the shorter side: surplus
header columns get no entry and surplus row values are dropped. -/
theorem buildRow_truncates_to_shorter (res_head res_row : List String) :
    buildRow res_head res_row = buildRow (res_head.take res_row.length) res_row ∧
    buildRow res_head res_row = buildRow res_head (res_row.take res_head.length) ∧
    (res_head.zip res_row).length = min res_head.length res_row.length := by
  refine ⟨?_, ?_, by simp⟩
  · rw [buildRow, buildRow, zip_take_len_left]
  · rw [buildRow, buildRow, zip_take_len_right]

/-- Claim C9: a CSV with a header row and zero data rows makes
`generate` succeed for any header (the per-row field check never runs):
the template is rendered on the empty `tests` sequence and written to
the derived output path, which is returned. -/
theorem generate_header_only_succeeds (template : List Entry → String) (env : Env)
    (testcases : List Dict) (input_file : String) (res_head : List String) :
    generate template env testcases input_file res_head [] =
      .ok ⟨pySplitextRoot input_file ++ ".md", template []⟩ := rfl

/-- Claim C10: if, while matching a row that has both the `id` and
`deployment` columns, the scan reaches a testcase lacking the `Name`
key, that row's processing raises the missing-key error for `Name`,
and `generate` aborts through the same logged-and-re-raised error path
as a malformed row, writing no output file. -/
theorem missing_name_key_aborts_generate (template : List Entry → String) (env : Env)
    (input_file : String) (res_head : List String) (rows : List (List String))
    (row : List String) (pre rest : List Dict) (bad : Dict) (rid dep : String)
    (hrow : row ∈ rows)
    (hid : odFind (buildRow res_head row) ResultsConstants_ID = some rid)
    (hdep : odFind (buildRow res_head row) ResultsConstants_DEPLOYMENT = some dep)
    (hpre : ∀ tc ∈ pre, ∃ n, odFind tc "Name" = some n ∧ n ≠ rid)
    (hbad : odFind bad "Name" = none) :
    processRow (pre ++ bad :: rest) env (buildRow res_head row) = .error "Name" ∧
    ∃ k, generate template env (pre ++ bad :: rest) input_file res_head rows =
      .error ⟨k, input_file⟩ := by
  have hp := processRow_err_name pre rest bad env (buildRow res_head row) rid hid hpre hbad
  refine ⟨hp, ?_⟩
  obtain ⟨k, hk⟩ := buildTests_err (pre ++ bad :: rest) env (get_results res_head rows)
    (buildRow res_head row) (List.mem_map_of_mem _ hrow) ⟨"Name", hp⟩
  exact ⟨k, by rw [generate, hk]⟩

/-! ### Witnesses: the theorems above applied at concrete inputs -/

theorem generate_entry_per_row_witness :
    ∃ tests : List Entry, generate (fun _ => "R") ⟨"o", "k", "n", "c", "cc", "m", "p"⟩
        [[("Name", "testA"), ("Mode", "fast")]] "results.csv"
        ["id", "deployment", "throughput"] [["testA", "single", "1000"]] =
        .ok ⟨pySplitextRoot "results.csv" ++ ".md", (fun _ => "R") tests⟩ ∧
      tests.length = 1 ∧
      List.Forall₂ (fun row e =>
        e.map Prod.fst = ["ID", "id", "deployment", "conf", "result", "env"] ∧
        ∃ rid, odFind (buildRow ["id", "deployment", "throughput"] row)
            ResultsConstants_ID = some rid ∧
          odFind e "ID" = some (Val.str rid.toUpper) ∧
          odFind e "id" = some (Val.str rid))
        [["testA", "single", "1000"]] tests :=
  generate_entry_per_row (fun _ => "R") ⟨"o", "k", "n", "c", "cc", "m", "p"⟩
    [[("Name", "testA"), ("Mode", "fast")]] "results.csv"
    ["id", "deployment", "throughput"] [["testA", "single", "1000"]]
    (by decide) (by decide)

theorem conf_first_match_wins_witness :
    ∃ e, processRow [[("Name", "testA"), ("Mode", "fast")]]
        ⟨"o", "k", "n", "c", "cc", "m", "p"⟩
        (buildRow ["id", "deployment"] ["testA", "single"]) = .ok e ∧
      odFind e "conf" = some (.dict (([[("Name", "testA"), ("Mode", "fast")]].find?
        (fun tc => odFind tc "Name" == some "testA")).getD [])) :=
  conf_first_match_wins [[("Name", "testA"), ("Mode", "fast")]]
    ⟨"o", "k", "n", "c", "cc", "m", "p"⟩ ["id", "deployment"] ["testA", "single"]
    "testA" "single" rfl rfl (by decide)

theorem result_drops_id_and_deployment_witness :
    ∃ e, processRow [] ⟨"o", "k", "n", "c", "cc", "m", "p"⟩
        (buildRow ["id", "deployment", "throughput"] ["testA", "single", "1000"]) =
        .ok e ∧
      odFind e "result" = some (.dict ((buildRow ["id", "deployment", "throughput"]
        ["testA", "single", "1000"]).filter
        (fun p => p.1 != ResultsConstants_ID && p.1 != ResultsConstants_DEPLOYMENT))) :=
  result_drops_id_and_deployment [] ⟨"o", "k", "n", "c", "cc", "m", "p"⟩
    ["id", "deployment", "throughput"] ["testA", "single", "1000"]
    "testA" "single" rfl rfl (by decide)

theorem missing_field_aborts_generate_witness :
    ∃ k, generate (fun _ => "T") ⟨"o", "k", "n", "c", "cc", "m", "p"⟩ [] "results.csv"
        ["id", "foo"] [["a", "b"]] = .error ⟨k, "results.csv"⟩ :=
  missing_field_aborts_generate (fun _ => "T") ⟨"o", "k", "n", "c", "cc", "m", "p"⟩
    [] "results.csv" ["id", "foo"] [["a", "b"]]
    ⟨["a", "b"], List.mem_cons_self _ _, Or.inr rfl⟩

theorem output_path_replaces_final_extension_witness :
    (Written.mk "results.md" "T").path = pySplitextRoot "results.csv" ++ ".md" ∧
    pySplitextRoot "results.csv" = "results" ∧
    pySplitextRoot "a.b.csv" = "a.b" :=
  output_path_replaces_final_extension (fun _ => "T")
    ⟨"o", "k", "n", "c", "cc", "m", "p"⟩ [] "results.csv" ["x"] []
    ⟨"results.md", "T"⟩ rfl

theorem generate_deterministic_witness :
    (Written.mk "results.md" "T").path = (Written.mk "results.md" "T").path ∧
    (Written.mk "results.md" "T").content = (Written.mk "results.md" "T").content :=
  generate_deterministic (fun _ => "T") ⟨"o", "k", "n", "c", "cc", "m", "p"⟩
    [] "results.csv" ["x"] [] ⟨"results.md", "T"⟩ ⟨"results.md", "T"⟩ rfl rfl

theorem missing_name_key_aborts_generate_witness :
    processRow ([] ++ [("x", "y")] :: []) ⟨"o", "k", "n", "c", "cc", "m", "p"⟩
        (buildRow ["id", "deployment"] ["a", "s"]) = .error "Name" ∧
    ∃ k, generate (fun _ => "T") ⟨"o", "k", "n", "c", "cc", "m", "p"⟩
        ([] ++ [("x", "y")] :: []) "f.csv" ["id", "deployment"] [["a", "s"]] =
      .error ⟨k, "f.csv"⟩ :=
  missing_name_key_aborts_generate (fun _ => "T") ⟨"o", "k", "n", "c", "cc", "m", "p"⟩
    "f.csv" ["id", "deployment"] [["a", "s"]] ["a", "s"] [] [] [("x", "y")] "a" "s"
    (List.mem_cons_self _ _) rfl rfl
    (fun tc h => ((List.not_mem_nil tc) h).elim) rfl

end VsperfReport
